import Mathlib

/-!
Shallow embedding of the PhoneNormalizer repository.

The repository consists of three near-duplicate scripts, each defining its
own `normalize_number` (plus `format_by_country` and, in one variant,
`compute_comparison`).  Python strings are modelled as `List Char`; the two
country-to-dialing-code tables (built from the external pycountry registry
and an operator spreadsheet) and the external `phonenumbers` parse/validate
step are injected as parameters, exactly as the design treats them: an
injected lookup service and an external validity oracle.
-/

abbrev Str := List Char

/-- Model of `re.sub(r"\D", "", s)` and of `"".join(c for c in s if c.isdigit())`. -/
def digitsOf (s : Str) : Str := s.filter Char.isDigit

/-- Model of the Python slice `s[-n:]`. -/
def lastN (n : Nat) (l : Str) : Str := l.drop (l.length - n)

/-- Model of Python `str.strip()`. -/
def pystrip (s : Str) : Str :=
  ((s.dropWhile Char.isWhitespace).reverse.dropWhile Char.isWhitespace).reverse

/-- Model of Python `str.lower()`. -/
def pylower (s : Str) : Str := s.map Char.toLower

/-- Model of the Python substring test `needle in hay`. -/
def containsSub (needle : Str) : Str → Bool
  | [] => needle.isEmpty
  | c :: rest => needle.isPrefixOf (c :: rest) || containsSub needle rest

/-- Python truthiness of a `dict.get` result: both `None` and `""` are falsy. -/
def truthy : Option Str → Option Str
  | some v => if v = [] then none else some v
  | none => none

/-- Model of `correct_code = internal.get(c)` followed by
`if not correct_code: correct_code = external.get(c)`; yields `none` when the
final value is still falsy (the Unknown-country case). -/
def resolveCode (itab etab : Str → Option Str) (c : Str) : Option Str :=
  match truthy (itab c) with
  | some v => some v
  | none => truthy (etab c)

/-- Insertion step of a sort by descending length. -/
def insertByLen (c : Str) : List Str → List Str
  | [] => [c]
  | d :: rest => if d.length ≤ c.length then c :: d :: rest else d :: insertByLen c rest

/-- Model of `sorted(codes, key=lambda x: -len(x))`: some permutation of the
input that is ordered by descending length (which permutation is irrelevant,
because two distinct codes of equal length are never both prefixes of the
same digit string). -/
def sortByLenDesc : List Str → List Str
  | [] => []
  | c :: rest => insertByLen c (sortByLenDesc rest)

/-- Model of the matching loop: the first code in the list that is a prefix of
the digit string (`for code in ...: if digits.startswith(code): ...; break`). -/
def firstMatch (codes : List Str) (digits : Str) : Option Str :=
  match codes with
  | [] => none
  | c :: rest => if c.isPrefixOf digits then some c else firstMatch rest digits

namespace Phone_nor1

/-- The seventeen Caribbean NANP members listed in `Phone_nor1.py`. -/
def caribbean_countries : List Str :=
  [("antigua and barbuda".data), ("the bahamas".data), ("bahamas".data), ("barbados".data),
   ("cuba".data), ("dominica".data), ("dominican republic".data), ("grenada".data),
   ("haiti".data), ("jamaica".data), ("saint kitts and nevis".data),
   ("st kitts and nevis".data), ("saint lucia".data), ("st lucia".data),
   ("saint vincent and the grenadines".data), ("st vincent and the grenadines".data),
   ("trinidad and tobago".data)]

/-- The NANP dispatch test of `Phone_nor1.py`:
`country_clean in ["united states", "usa", "canada"] or country_clean in caribbean_countries`. -/
def nanpCountry (c : Str) : Bool :=
  ([("united states".data), ("usa".data), ("canada".data)]).contains c
    || caribbean_countries.contains c

/-- The `format_by_country` function of `Phone_nor1.py`. -/
def format_by_country (e164_number : Str) (country_clean : Str) : Str :=
  let digits := digitsOf e164_number
  if digits = [] then e164_number
  else if nanpCountry country_clean then
    let national := lastN 10 digits
    ("+1-(".data) ++ national.take 3 ++ (")-".data) ++ (national.drop 3).take 3
      ++ ("-".data) ++ national.drop 6
  else if country_clean = ("united kingdom".data) then
    let national := if ("44".data).isPrefixOf digits then digits.drop 2 else digits
    ("+44-".data) ++ national.take 4 ++ ("-".data) ++ (national.drop 4).take 3
      ++ ("-".data) ++ national.drop 7
  else if country_clean = ("mexico".data) then
    let national := if ("52".data).isPrefixOf digits then digits.drop 2 else digits
    ("+52-".data) ++ national.take 3 ++ ("-".data) ++ (national.drop 3).take 3
      ++ ("-".data) ++ national.drop 6
  else if country_clean = ("australia".data) then
    let national := if ("61".data).isPrefixOf digits then digits.drop 2 else digits
    ("+61-".data) ++ national.take 1 ++ ("-".data) ++ (national.drop 1).take 4
      ++ ("-".data) ++ national.drop 5
  else if country_clean = ("new zealand".data) then
    let national := if ("64".data).isPrefixOf digits then digits.drop 2 else digits
    ("+64-".data) ++ national.take 1 ++ ("-".data) ++ (national.drop 1).take 3
      ++ ("-".data) ++ national.drop 4
  else if country_clean = ("india".data) then
    let national := if ("91".data).isPrefixOf digits then digits.drop 2 else digits
    if 10 ≤ national.length then
      ("+91-".data) ++ national.take 2 ++ ("-".data) ++ national.drop 2
    else ("+91-".data) ++ national
  else if country_clean = ("brazil".data) then
    let national := if ("55".data).isPrefixOf digits then digits.drop 2 else digits
    ("+55-".data) ++ national.take 2 ++ ("-".data) ++ (national.drop 2).take 4
      ++ ("-".data) ++ national.drop 6
  else e164_number

/-- The NANP pre-cleaning of `Phone_nor1.py`: `cleaned = re.sub(r"[^\d+]", "", number)`
followed by prepending `"+"` when absent. -/
def cleanedPlus (number : Str) : Str :=
  let cleaned0 := number.filter (fun ch => ch.isDigit || ch == '+')
  if ("+".data).isPrefixOf cleaned0 then cleaned0 else '+' :: cleaned0

/-- Longest-prefix scan of `Phone_nor1.py`: the union of all known codes is
sorted by descending length and the first prefix of the digit string wins. -/
def matched_code (allCodes : List Str) (digits : Str) : Option Str :=
  firstMatch (sortByLenDesc allCodes) digits

/-- The `normalize_number` function of `Phone_nor1.py`.  `itab`/`etab` are the
internal and external country-to-code tables; `parseUS` models
`phonenumbers.parse(cleaned, "US")` plus `is_valid_number`, returning the
parsed `(country_code, national_number)` on a valid parse and `none` on a
parse failure or invalid number. -/
def normalize_number (itab etab : Str → Option Str) (allCodes : List Str)
    (parseUS : Str → Option (Nat × Str)) (number country_clean : Str) : Str × Str :=
  if digitsOf number = [] then ([], ("Missing Number".data))
  else
    match resolveCode itab etab country_clean with
    | none => ([], ("❌ Unknown country".data))
    | some correct_code =>
      let digits := digitsOf number
      if nanpCountry country_clean then
        let cleaned := cleanedPlus number
        match parseUS cleaned with
        | some p =>
          if p.1 = 1 then
            let formatted := '+' :: ((Nat.repr p.1).data ++ p.2)
            (format_by_country formatted country_clean, ("✅ Valid & Matched".data))
          else
            let corrected := ("+1".data) ++ p.2
            (format_by_country corrected country_clean,
             ("⚠️ Forced into US/Caribbean format".data))
        | none =>
          let digits2 := digitsOf cleaned
          if digits2 = [] then ([], ("Missing Number".data))
          else if ("1".data).isPrefixOf digits2 ∧ digits2.length = 11 then
            (format_by_country ('+' :: digits2) country_clean, ("✅ Valid & Matched".data))
          else if digits2.length = 10 then
            (format_by_country (("+1".data) ++ digits2) country_clean,
             ("✅ Valid & Matched".data))
          else if digits2.length < 10 then ([], ("Missing Number".data))
          else
            (format_by_country (("+1".data) ++ lastN 10 digits2) country_clean,
             ("⚠️ Forced into US/Caribbean format".data))
      else
        let m? := matched_code allCodes digits
        if digits = [] then ([], ("Missing Number".data))
        else
          match m? with
          | some m =>
            let remaining0 := digits.drop m.length
            let remaining :=
              if ("1".data).isPrefixOf m ∧ correct_code ≠ ("1".data) then digits.drop 1
              else remaining0
            if m = correct_code then
              (format_by_country ('+' :: digits) country_clean, ("✅ Valid & Matched".data))
            else
              (format_by_country ('+' :: (correct_code ++ remaining)) country_clean,
               ("🔄 Corrected from ".data) ++ m ++ (" → ".data) ++ correct_code)
          | none =>
            let d2 := digits.dropWhile (fun ch => ch == '0')
            if d2 = [] then ([], ("Missing Number".data))
            else
              (format_by_country ('+' :: (correct_code ++ d2)) country_clean,
               ("⚠️ Added country code → ".data) ++ correct_code)

end Phone_nor1

namespace PhoneNor3

/-- The `normalize_number` function of `PhoneNor3.py`.  `parse3` models
`phonenumbers.parse(n, "US")` plus `is_valid_number_for_region(parsed, "US")`,
returning the E.164 rendering on success.  This variant has no missing-number
guard, special-cases only `"united states"`/`"usa"`, and applies no
per-country display formatting. -/
def normalize_number (itab etab : Str → Option Str) (allCodes : List Str)
    (parse3 : Str → Option Str) (number country_clean : Str) : Str × Str :=
  match resolveCode itab etab country_clean with
  | none => (number, ("❌ Unknown country".data))
  | some correct_code =>
    let digits := digitsOf number
    if country_clean = ("united states".data) ∨ country_clean = ("usa".data) then
      let cleaned := digitsOf number
      let has_plus := ("+".data).isPrefixOf (pystrip number)
      match parse3 number with
      | some f =>
        if has_plus then (f, ("✅ Valid & Matched".data))
        else (f, ("⚠️ Added country code → ".data) ++ correct_code)
      | none =>
        match parse3 ('+' :: cleaned) with
        | some f =>
          if !has_plus then (f, ("⚠️ Added country code → ".data) ++ correct_code)
          else (f, ("✅ Valid & Matched".data))
        | none =>
          match (if ("001".data).isPrefixOf cleaned
                 then parse3 (("+1".data) ++ cleaned.drop 3) else none) with
          | some f => (f, ("⚠️ Added country code → ".data) ++ correct_code)
          | none =>
            let cleaned1 := if ("1".data).isPrefixOf cleaned then cleaned.drop 1 else cleaned
            let cleaned2 := lastN 10 cleaned1
            let corrected := ("+1".data) ++ cleaned2
            match parse3 corrected with
            | some f => (f, ("⚠️ Forced into US format".data))
            | none => (corrected, ("⚠️ Forced into US format".data))
    else
      let m? := Phone_nor1.matched_code allCodes digits
      match m? with
      | some m =>
        let remaining0 := digits.drop m.length
        let remaining :=
          if ("1".data).isPrefixOf m ∧ correct_code ≠ ("1".data) then digits.drop 1
          else remaining0
        if m = correct_code then ('+' :: digits, ("✅ Valid & Matched".data))
        else
          ('+' :: (correct_code ++ remaining),
           ("🔄 Corrected from ".data) ++ m ++ (" → ".data) ++ correct_code)
      | none =>
        let d2 := digits.dropWhile (fun ch => ch == '0')
        ('+' :: (correct_code ++ d2), ("⚠️ Added country code → ".data) ++ correct_code)

end PhoneNor3

namespace Phone_norr5

/-- The Caribbean NANP members listed in `Phone_norr5.py` (same seventeen names). -/
def caribbean : List Str :=
  [("antigua and barbuda".data), ("bahamas".data), ("the bahamas".data), ("barbados".data),
   ("cuba".data), ("dominica".data), ("dominican republic".data), ("grenada".data),
   ("haiti".data), ("jamaica".data), ("saint kitts and nevis".data),
   ("st kitts and nevis".data), ("saint lucia".data), ("st lucia".data),
   ("saint vincent and the grenadines".data), ("st vincent and the grenadines".data),
   ("trinidad and tobago".data)]

/-- The NANP dispatch test of `Phone_norr5.py`. -/
def nanpCountry (c : Str) : Bool :=
  ([("united states".data), ("usa".data), ("canada".data)]).contains c || caribbean.contains c

/-- The `expected_lengths` dictionary of `Phone_norr5.py`, as a lookup. -/
def expected_lengths (c : Str) : Option Nat :=
  if c = ("usa".data) ∨ c = ("united states".data) ∨ c = ("canada".data) ∨ caribbean.contains c
  then some 10
  else if c = ("united kingdom".data) ∨ c = ("mexico".data) ∨ c = ("india".data) then some 10
  else if c = ("australia".data) then some 9
  else if c = ("new zealand".data) then some 8
  else if c = ("brazil".data) then some 10
  else none

/-- The `compute_comparison` function of `Phone_norr5.py`. -/
def compute_comparison (original corrected : Str) : Str :=
  let orig := pystrip original
  let corr := pystrip corrected
  if orig = corr then ("Unchanged".data)
  else if containsSub ("868".data) orig ∧ containsSub ("(868)".data) corr then
    ("Removed duplicated 868 prefix + reformatted".data)
  else if ("+1-(".data).isPrefixOf corr ∧ ¬(("+1".data).isPrefixOf orig = true) then
    ("Added +1 + reformatted into NANP".data)
  else if ("+44".data).isPrefixOf corr ∧ ¬(("+44".data).isPrefixOf orig = true) then
    ("Added +44 + UK formatting".data)
  else if ("+91".data).isPrefixOf corr ∧ ¬(("+91".data).isPrefixOf orig = true) then
    ("Added +91 + India formatting".data)
  else if ("+52".data).isPrefixOf corr ∧ ¬(("+52".data).isPrefixOf orig = true) then
    ("Added +52 + Mexico formatting".data)
  else if ("+55".data).isPrefixOf corr ∧ ¬(("+55".data).isPrefixOf orig = true) then
    ("Added +55 + Brazil formatting".data)
  else if digitsOf orig = digitsOf corr then ("Formatting changed only".data)
  else if (digitsOf corr).length < (digitsOf orig).length then ("Trimmed extra digits".data)
  else ("Changed digits".data)

/-- The `format_by_country` function of `Phone_norr5.py`.  Note: it lowercases
the country key, has no empty-digits guard, and formats only UK, India,
Mexico and Brazil. -/
def format_by_country (e164 country : Str) : Str :=
  let digits := digitsOf e164
  let c := pylower country
  if ([("uk".data), ("gb".data), ("united kingdom".data)]).contains c then
    let n := if ("44".data).isPrefixOf digits then digits.drop 2 else digits
    ("+44-".data) ++ n.take 4 ++ ("-".data) ++ (n.drop 4).take 3 ++ ("-".data) ++ n.drop 7
  else if c = ("india".data) then
    let n := if ("91".data).isPrefixOf digits then digits.drop 2 else digits
    ("+91-".data) ++ n.take 2 ++ ("-".data) ++ n.drop 2
  else if c = ("mexico".data) then
    let n := if ("52".data).isPrefixOf digits then digits.drop 2 else digits
    ("+52-".data) ++ n.take 3 ++ ("-".data) ++ (n.drop 3).take 3 ++ ("-".data) ++ n.drop 6
  else if c = ("brazil".data) then
    let n := if ("55".data).isPrefixOf digits then digits.drop 2 else digits
    ("+55-".data) ++ n.take 2 ++ ("-".data) ++ (n.drop 2).take 4 ++ ("-".data) ++ n.drop 6
  else e164

/-- The country-key normalisation at the head of `normalize_number` in
`Phone_norr5.py`: lowercase, strip, and fold the UK aliases. -/
def foldCountry (country_clean : Str) : Str :=
  let c0 := pystrip (pylower country_clean)
  if ([("uk".data), ("gb".data), ("u.k.".data), ("unitedkingdom".data)]).contains c0
  then ("united kingdom".data) else c0

/-- The `normalize_number` function of `Phone_norr5.py`.  `parse5` models the
inner `try_parse`: `phonenumbers.parse(n, "US")` plus `is_valid_number`,
returning the E.164 rendering on success.  Returns (corrected, verification,
comparison). -/
def normalize_number (itab etab : Str → Option Str)
    (parse5 : Str → Option Str) (number country_clean : Str) : Str × Str × Str :=
  if digitsOf number = [] then
    ([], ("Missing Number".data), ("Missing Number".data))
  else
    match resolveCode itab etab (foldCountry country_clean) with
    | none => (number, ("❌ Unknown country".data), ("Unknown country".data))
    | some correct_code =>
      if nanpCountry (foldCountry country_clean) then
        if foldCountry country_clean = ("trinidad and tobago".data)
            ∧ ("1868868".data).isPrefixOf (digitsOf number)
            ∧ 11 < (digitsOf number).length then
          let local7 := lastN 7 (digitsOf number)
          let out := ("+1-(868)-".data) ++ local7.take 3 ++ ("-".data) ++ local7.drop 3
          (out, ("✅ Valid & Matched".data), compute_comparison number out)
        else
          match (match parse5 number with
                 | some e => some e
                 | none => parse5 ('+' :: digitsOf number)) with
          | some e164 =>
            let nat := lastN 10 (digitsOf e164)
            let out := ("+1-(".data) ++ nat.take 3 ++ (")-".data) ++ (nat.drop 3).take 3
                         ++ ("-".data) ++ nat.drop 6
            (out, ("✅ Valid & Matched".data), compute_comparison number out)
          | none =>
            let cl := lastN 10 (digitsOf number)
            let out := ("+1-(".data) ++ cl.take 3 ++ (")-".data) ++ (cl.drop 3).take 3
                         ++ ("-".data) ++ cl.drop 6
            (out, ("⚠️ Forced into US format".data), compute_comparison number out)
      else
        let corrected :=
          if ¬(correct_code.isPrefixOf (digitsOf number) = true)
          then '+' :: (correct_code ++ digitsOf number)
          else '+' :: digitsOf number
        let formatted := format_by_country corrected (foldCountry country_clean)
        let comp := compute_comparison number formatted
        match expected_lengths (foldCountry country_clean) with
        | some expected =>
          if expected ≠ 0 ∧ (digitsOf formatted).length < correct_code.length + expected then
            (formatted, ("Missing Data".data), comp)
          else (formatted, ("✅ Valid & Matched".data), comp)
        | none => (formatted, ("✅ Valid & Matched".data), comp)

end Phone_norr5

/-- Concrete internal table used for witnesses and counterexamples: the
relevant fragment of the pycountry-derived map (pycountry keys are full
lowercase country names). -/
def demoItab (c : Str) : Option Str :=
  if c = ("india".data) then some ("91".data)
  else if c = ("united states".data) then some ("1".data)
  else if c = ("canada".data) then some ("1".data)
  else if c = ("trinidad and tobago".data) then some ("1".data)
  else if c = ("united kingdom".data) then some ("44".data)
  else if c = ("brazil".data) then some ("55".data)
  else none

/-- Concrete external table used for witnesses: empty (the backup file absent). -/
def demoEtab (_c : Str) : Option Str := none

/-- Concrete known-code set used for witnesses: a fragment of the real codes. -/
def demoCodes : List Str :=
  [("1".data), ("44".data), ("52".data), ("55".data), ("61".data), ("64".data), ("91".data)]

/-- Parse oracle that always fails, for exercising the fallback paths. -/
def demoParse (_s : Str) : Option (Nat × Str) := none

/-- Parse oracle (E.164-valued) that always fails. -/
def demoParseStr (_s : Str) : Option Str := none

/-- Cascade written from the claim wording for C9, amended in exactly one
point: both inputs are stripped of surrounding whitespace first, and every
check reads the stripped strings.  Checks in order, first match wins:
equal strings yield Unchanged; the literal-substring duplication check yields
the repaired-prefix message; the added-prefix checks (+1 with NANP
parenthesis, then +44, +91, +52, +55) yield the Added messages; equal
digit-only projections yield Formatting changed only; a corrected value with
fewer digits than the original yields Trimmed extra digits; otherwise
Changed digits. -/
def classifyCascade (original corrected : Str) : Str :=
  let o := pystrip original
  let c := pystrip corrected
  if o = c then ("Unchanged".data)
  else if containsSub ("868".data) o ∧ containsSub ("(868)".data) c then
    ("Removed duplicated 868 prefix + reformatted".data)
  else if ("+1-(".data).isPrefixOf c ∧ ¬(("+1".data).isPrefixOf o = true) then
    ("Added +1 + reformatted into NANP".data)
  else if ("+44".data).isPrefixOf c ∧ ¬(("+44".data).isPrefixOf o = true) then
    ("Added +44 + UK formatting".data)
  else if ("+91".data).isPrefixOf c ∧ ¬(("+91".data).isPrefixOf o = true) then
    ("Added +91 + India formatting".data)
  else if ("+52".data).isPrefixOf c ∧ ¬(("+52".data).isPrefixOf o = true) then
    ("Added +52 + Mexico formatting".data)
  else if ("+55".data).isPrefixOf c ∧ ¬(("+55".data).isPrefixOf o = true) then
    ("Added +55 + Brazil formatting".data)
  else if digitsOf o = digitsOf c then ("Formatting changed only".data)
  else if (digitsOf c).length < (digitsOf o).length then ("Trimmed extra digits".data)
  else ("Changed digits".data)

theorem digitsOf_append (a b : Str) : digitsOf (a ++ b) = digitsOf a ++ digitsOf b :=
  List.filter_append a b

theorem digitsOf_all {s : Str} : ∀ ch ∈ digitsOf s, ch.isDigit = true := by
  intro ch hch
  exact (List.mem_filter.mp hch).2

theorem digitsOf_of_all {l : Str} (h : ∀ ch ∈ l, ch.isDigit = true) : digitsOf l = l :=
  List.filter_eq_self.mpr h

theorem digitsOf_sub {s l : Str} (hsub : l ⊆ digitsOf s) : digitsOf l = l :=
  digitsOf_of_all fun ch hch => digitsOf_all ch (hsub hch)

theorem digitsOf_idem (s : Str) : digitsOf (digitsOf s) = digitsOf s :=
  digitsOf_sub fun _ h => h

theorem lastN_sub (n : Nat) (l : Str) : lastN n l ⊆ l := List.drop_subset _ _

theorem lastN_length (n : Nat) (l : Str) : (lastN n l).length = min n l.length := by
  simp only [lastN, List.length_drop]
  omega

theorem lastN_cons_eq {c : Char} {l : Str} {n : Nat} (h : l.length = n) :
    lastN n (c :: l) = l := by
  simp only [lastN, List.length_cons]
  rw [show l.length + 1 - n = 1 from by omega]
  simp

theorem digitsOf_filterPlus (number : Str) :
    digitsOf (number.filter (fun ch => ch.isDigit || ch == '+')) = digitsOf number := by
  unfold digitsOf
  rw [List.filter_filter]
  apply List.filter_congr
  intro a _
  cases h : a.isDigit <;> simp [h]

theorem digitsOf_cleanedPlus (number : Str) :
    digitsOf (Phone_nor1.cleanedPlus number) = digitsOf number := by
  have hplus : ('+' : Char).isDigit = false := by decide
  unfold Phone_nor1.cleanedPlus
  dsimp only
  split
  · exact digitsOf_filterPlus number
  · rw [show digitsOf ('+' :: (number.filter (fun ch => ch.isDigit || ch == '+'))) =
          digitsOf (number.filter (fun ch => ch.isDigit || ch == '+')) from by
        simp [digitsOf, List.filter_cons, hplus]]
    exact digitsOf_filterPlus number

theorem firstMatch_sound {codes : List Str} {digits m : Str}
    (h : firstMatch codes digits = some m) : m ∈ codes ∧ m.isPrefixOf digits = true := by
  induction codes with
  | nil => exact absurd h (by simp [firstMatch])
  | cons c rest ih =>
    rw [firstMatch] at h
    split at h
    · injection h with h
      subst h
      exact ⟨List.mem_cons_self _ _, by assumption⟩
    · obtain ⟨h1, h2⟩ := ih h
      exact ⟨List.mem_cons_of_mem _ h1, h2⟩

theorem firstMatch_longest {codes : List Str} {digits m : Str}
    (hp : List.Pairwise (fun a b => b.length ≤ a.length) codes)
    (h : firstMatch codes digits = some m) :
    ∀ c ∈ codes, c.isPrefixOf digits = true → c.length ≤ m.length := by
  induction codes with
  | nil => exact absurd h (by simp [firstMatch])
  | cons c0 rest ih =>
    rw [firstMatch] at h
    split at h
    · injection h with h
      subst h
      intro c hc _
      rcases List.mem_cons.mp hc with rfl | hmem
      · exact le_refl _
      · exact (List.pairwise_cons.mp hp).1 c hmem
    · intro c hc hcp
      rcases List.mem_cons.mp hc with rfl | hmem
      · exact absurd hcp (by assumption)
      · exact ih (List.pairwise_cons.mp hp).2 h c hmem hcp

theorem firstMatch_complete {codes : List Str} {digits c : Str}
    (hc : c ∈ codes) (hp : c.isPrefixOf digits = true) :
    firstMatch codes digits ≠ none := by
  induction codes with
  | nil => cases hc
  | cons c0 rest ih =>
    rw [firstMatch]
    split
    · simp
    · rcases List.mem_cons.mp hc with rfl | hmem
      · exact absurd hp (by assumption)
      · exact ih hmem

theorem mem_insertByLen {x c : Str} {l : List Str} :
    x ∈ insertByLen c l ↔ x = c ∨ x ∈ l := by
  induction l with
  | nil => simp [insertByLen]
  | cons d rest ih =>
    rw [insertByLen]
    split
    · simp [List.mem_cons]
    · simp [List.mem_cons, ih]
      tauto

theorem pairwise_insertByLen {c : Str} {l : List Str}
    (hl : List.Pairwise (fun a b => b.length ≤ a.length) l) :
    List.Pairwise (fun a b => b.length ≤ a.length) (insertByLen c l) := by
  induction l with
  | nil => simp [insertByLen]
  | cons d rest ih =>
    rw [insertByLen]
    split
    · rename_i hdc
      refine List.pairwise_cons.mpr ⟨?_, hl⟩
      intro b hb
      rcases List.mem_cons.mp hb with rfl | hmem
      · exact hdc
      · exact le_trans ((List.pairwise_cons.mp hl).1 b hmem) hdc
    · rename_i hdc
      refine List.pairwise_cons.mpr ⟨?_, ih (List.pairwise_cons.mp hl).2⟩
      intro b hb
      rcases mem_insertByLen.mp hb with rfl | hmem
      · omega
      · exact (List.pairwise_cons.mp hl).1 b hmem

theorem pairwise_sortByLenDesc (l : List Str) :
    List.Pairwise (fun a b => b.length ≤ a.length) (sortByLenDesc l) := by
  induction l with
  | nil => simp [sortByLenDesc]
  | cons c rest ih =>
    rw [sortByLenDesc]
    exact pairwise_insertByLen ih

theorem mem_sortByLenDesc {x : Str} {l : List Str} : x ∈ sortByLenDesc l ↔ x ∈ l := by
  induction l with
  | nil => simp [sortByLenDesc]
  | cons c rest ih =>
    rw [sortByLenDesc, mem_insertByLen]
    simp [ih, List.mem_cons]

theorem cat_ne_nil {a : Str} (b : Str) (h : a ≠ []) : a ++ b ≠ [] := by
  cases a with
  | nil => exact absurd rfl h
  | cons x xs => simp

set_option maxHeartbeats 1000000 in
theorem fbc_ne_nil {s c : Str} (h : s ≠ []) : Phone_nor1.format_by_country s c ≠ [] := by
  unfold Phone_nor1.format_by_country
  dsimp only
  split
  · exact h
  · repeat' split
    all_goals try exact h
    all_goals repeat apply cat_ne_nil
    all_goals decide

theorem regroup (a b c : Nat) (h : c = a + b) (n : Str) :
    n.take a ++ ((n.drop a).take b ++ n.drop c) = n := by
  subst h
  have h2 : n.drop (a + b) = (n.drop a).drop b := by rw [List.drop_drop]
  rw [h2, List.take_append_drop, List.take_append_drop]

theorem fbc_nanp {s c : Str} (hd : digitsOf s ≠ []) (hc : Phone_nor1.nanpCountry c = true) :
    Phone_nor1.format_by_country s c =
      ("+1-(".data) ++ (lastN 10 (digitsOf s)).take 3 ++ (")-".data)
        ++ ((lastN 10 (digitsOf s)).drop 3).take 3 ++ ("-".data)
        ++ (lastN 10 (digitsOf s)).drop 6 := by
  unfold Phone_nor1.format_by_country
  dsimp only
  rw [if_neg hd, if_pos hc]

theorem nor1_missing_top {itab etab : Str → Option Str} {allCodes : List Str}
    {parseUS : Str → Option (Nat × Str)} {number c : Str}
    (hd : digitsOf number = []) :
    Phone_nor1.normalize_number itab etab allCodes parseUS number c
      = ([], ("Missing Number".data)) := by
  unfold Phone_nor1.normalize_number
  rw [if_pos hd]

theorem nor1_unknown {itab etab : Str → Option Str} {allCodes : List Str}
    {parseUS : Str → Option (Nat × Str)} {number c : Str}
    (hd : digitsOf number ≠ []) (hres : resolveCode itab etab c = none) :
    Phone_nor1.normalize_number itab etab allCodes parseUS number c
      = ([], ("❌ Unknown country".data)) := by
  unfold Phone_nor1.normalize_number
  rw [if_neg hd, hres]

theorem nor1_nanp_parsed_one {itab etab : Str → Option Str} {allCodes : List Str}
    {parseUS : Str → Option (Nat × Str)} {number c K : Str} {p : Nat × Str}
    (hd : digitsOf number ≠ []) (hres : resolveCode itab etab c = some K)
    (hn : Phone_nor1.nanpCountry c = true)
    (hp : parseUS (Phone_nor1.cleanedPlus number) = some p) (h1 : p.1 = 1) :
    Phone_nor1.normalize_number itab etab allCodes parseUS number c
      = (Phone_nor1.format_by_country ('+' :: ((Nat.repr p.1).data ++ p.2)) c,
         ("✅ Valid & Matched".data)) := by
  unfold Phone_nor1.normalize_number
  rw [if_neg hd, hres]
  dsimp only
  rw [if_pos hn, hp]
  dsimp only
  rw [if_pos h1]

theorem nor1_nanp_parsed_other {itab etab : Str → Option Str} {allCodes : List Str}
    {parseUS : Str → Option (Nat × Str)} {number c K : Str} {p : Nat × Str}
    (hd : digitsOf number ≠ []) (hres : resolveCode itab etab c = some K)
    (hn : Phone_nor1.nanpCountry c = true)
    (hp : parseUS (Phone_nor1.cleanedPlus number) = some p) (h1 : p.1 ≠ 1) :
    Phone_nor1.normalize_number itab etab allCodes parseUS number c
      = (Phone_nor1.format_by_country (("+1".data) ++ p.2) c,
         ("⚠️ Forced into US/Caribbean format".data)) := by
  unfold Phone_nor1.normalize_number
  rw [if_neg hd, hres]
  dsimp only
  rw [if_pos hn, hp]
  dsimp only
  rw [if_neg h1]

theorem nor1_nanp_eleven {itab etab : Str → Option Str} {allCodes : List Str}
    {parseUS : Str → Option (Nat × Str)} {number c K : Str}
    (hd : digitsOf number ≠ []) (hres : resolveCode itab etab c = some K)
    (hn : Phone_nor1.nanpCountry c = true)
    (hp : parseUS (Phone_nor1.cleanedPlus number) = none)
    (hA : ("1".data).isPrefixOf (digitsOf number) = true ∧ (digitsOf number).length = 11) :
    Phone_nor1.normalize_number itab etab allCodes parseUS number c
      = (Phone_nor1.format_by_country ('+' :: digitsOf number) c,
         ("✅ Valid & Matched".data)) := by
  unfold Phone_nor1.normalize_number
  rw [if_neg hd, hres]
  dsimp only
  rw [if_pos hn, hp]
  dsimp only
  rw [digitsOf_cleanedPlus, if_neg hd, if_pos hA]

theorem nor1_nanp_ten {itab etab : Str → Option Str} {allCodes : List Str}
    {parseUS : Str → Option (Nat × Str)} {number c K : Str}
    (hd : digitsOf number ≠ []) (hres : resolveCode itab etab c = some K)
    (hn : Phone_nor1.nanpCountry c = true)
    (hp : parseUS (Phone_nor1.cleanedPlus number) = none)
    (hA : ¬(("1".data).isPrefixOf (digitsOf number) = true ∧ (digitsOf number).length = 11))
    (hB : (digitsOf number).length = 10) :
    Phone_nor1.normalize_number itab etab allCodes parseUS number c
      = (Phone_nor1.format_by_country (("+1".data) ++ digitsOf number) c,
         ("✅ Valid & Matched".data)) := by
  unfold Phone_nor1.normalize_number
  rw [if_neg hd, hres]
  dsimp only
  rw [if_pos hn, hp]
  dsimp only
  rw [digitsOf_cleanedPlus, if_neg hd, if_neg hA, if_pos hB]

theorem nor1_nanp_short {itab etab : Str → Option Str} {allCodes : List Str}
    {parseUS : Str → Option (Nat × Str)} {number c K : Str}
    (hd : digitsOf number ≠ []) (hres : resolveCode itab etab c = some K)
    (hn : Phone_nor1.nanpCountry c = true)
    (hp : parseUS (Phone_nor1.cleanedPlus number) = none)
    (hC : (digitsOf number).length < 10) :
    Phone_nor1.normalize_number itab etab allCodes parseUS number c
      = ([], ("Missing Number".data)) := by
  unfold Phone_nor1.normalize_number
  rw [if_neg hd, hres]
  dsimp only
  rw [if_pos hn, hp]
  dsimp only
  rw [digitsOf_cleanedPlus, if_neg hd, if_neg (by omega : ¬(("1".data).isPrefixOf
    (digitsOf number) = true ∧ (digitsOf number).length = 11)),
    if_neg (by omega : ¬(digitsOf number).length = 10), if_pos hC]

theorem nor1_nanp_fallback {itab etab : Str → Option Str} {allCodes : List Str}
    {parseUS : Str → Option (Nat × Str)} {number c K : Str}
    (hres : resolveCode itab etab c = some K)
    (hn : Phone_nor1.nanpCountry c = true)
    (hp : parseUS (Phone_nor1.cleanedPlus number) = none)
    (hlen : 10 < (digitsOf number).length)
    (hA : ¬(("1".data).isPrefixOf (digitsOf number) = true ∧ (digitsOf number).length = 11)) :
    Phone_nor1.normalize_number itab etab allCodes parseUS number c
      = (Phone_nor1.format_by_country (("+1".data) ++ lastN 10 (digitsOf number)) c,
         ("⚠️ Forced into US/Caribbean format".data)) := by
  have hd : digitsOf number ≠ [] := by
    intro h
    rw [h] at hlen
    simp at hlen
  unfold Phone_nor1.normalize_number
  rw [if_neg hd, hres]
  dsimp only
  rw [if_pos hn, hp]
  dsimp only
  rw [digitsOf_cleanedPlus, if_neg hd, if_neg hA,
    if_neg (by omega : ¬(digitsOf number).length = 10),
    if_neg (by omega : ¬(digitsOf number).length < 10)]

theorem nor1_corr_matched_eq {itab etab : Str → Option Str} {allCodes : List Str}
    {parseUS : Str → Option (Nat × Str)} {number c K m : Str}
    (hd : digitsOf number ≠ []) (hres : resolveCode itab etab c = some K)
    (hn : Phone_nor1.nanpCountry c = false)
    (hm : Phone_nor1.matched_code allCodes (digitsOf number) = some m) (heq : m = K) :
    Phone_nor1.normalize_number itab etab allCodes parseUS number c
      = (Phone_nor1.format_by_country ('+' :: digitsOf number) c,
         ("✅ Valid & Matched".data)) := by
  unfold Phone_nor1.normalize_number
  rw [if_neg hd, hres]
  dsimp only
  rw [if_neg (by simp [hn]), hm]
  dsimp only
  rw [if_neg hd, if_pos heq]

theorem nor1_corr_matched_ne {itab etab : Str → Option Str} {allCodes : List Str}
    {parseUS : Str → Option (Nat × Str)} {number c K m : Str}
    (hd : digitsOf number ≠ []) (hres : resolveCode itab etab c = some K)
    (hn : Phone_nor1.nanpCountry c = false)
    (hm : Phone_nor1.matched_code allCodes (digitsOf number) = some m) (hne : m ≠ K) :
    Phone_nor1.normalize_number itab etab allCodes parseUS number c
      = (Phone_nor1.format_by_country
           ('+' :: (K ++ (if ("1".data).isPrefixOf m ∧ K ≠ ("1".data)
                          then (digitsOf number).drop 1
                          else (digitsOf number).drop m.length))) c,
         ("🔄 Corrected from ".data) ++ m ++ (" → ".data) ++ K) := by
  unfold Phone_nor1.normalize_number
  rw [if_neg hd, hres]
  dsimp only
  rw [if_neg (by simp [hn]), hm]
  dsimp only
  rw [if_neg hd, if_neg hne]

theorem nor1_corr_zeros {itab etab : Str → Option Str} {allCodes : List Str}
    {parseUS : Str → Option (Nat × Str)} {number c K : Str}
    (hd : digitsOf number ≠ []) (hres : resolveCode itab etab c = some K)
    (hn : Phone_nor1.nanpCountry c = false)
    (hm : Phone_nor1.matched_code allCodes (digitsOf number) = none)
    (hz : (digitsOf number).dropWhile (fun ch => ch == '0') = []) :
    Phone_nor1.normalize_number itab etab allCodes parseUS number c
      = ([], ("Missing Number".data)) := by
  unfold Phone_nor1.normalize_number
  rw [if_neg hd, hres]
  dsimp only
  rw [if_neg (by simp [hn]), hm]
  dsimp only
  rw [if_neg hd, if_pos hz]

theorem nor1_corr_added {itab etab : Str → Option Str} {allCodes : List Str}
    {parseUS : Str → Option (Nat × Str)} {number c K : Str}
    (hd : digitsOf number ≠ []) (hres : resolveCode itab etab c = some K)
    (hn : Phone_nor1.nanpCountry c = false)
    (hm : Phone_nor1.matched_code allCodes (digitsOf number) = none)
    (hz : (digitsOf number).dropWhile (fun ch => ch == '0') ≠ []) :
    Phone_nor1.normalize_number itab etab allCodes parseUS number c
      = (Phone_nor1.format_by_country
           ('+' :: (K ++ (digitsOf number).dropWhile (fun ch => ch == '0'))) c,
         ("⚠️ Added country code → ".data) ++ K) := by
  unfold Phone_nor1.normalize_number
  rw [if_neg hd, hres]
  dsimp only
  rw [if_neg (by simp [hn]), hm]
  dsimp only
  rw [if_neg hd, if_neg hz]

theorem digitsOf_plus_cons (x : Str) : digitsOf ('+' :: x) = digitsOf x := by
  have hplus : ('+' : Char).isDigit = false := by decide
  simp [digitsOf, List.filter_cons, hplus]

theorem fbc_uk {s : Str} (hd : digitsOf s ≠ []) {n : Str}
    (hn : n = if ("44".data).isPrefixOf (digitsOf s) = true
              then (digitsOf s).drop 2 else digitsOf s) :
    Phone_nor1.format_by_country s ("united kingdom".data) =
      ("+44-".data) ++ n.take 4 ++ ("-".data) ++ (n.drop 4).take 3 ++ ("-".data) ++ n.drop 7 := by
  subst hn
  unfold Phone_nor1.format_by_country
  dsimp only
  rw [if_neg hd, if_neg (by decide : ¬Phone_nor1.nanpCountry ("united kingdom".data) = true),
    if_pos rfl]

theorem fbc_mexico {s : Str} (hd : digitsOf s ≠ []) {n : Str}
    (hn : n = if ("52".data).isPrefixOf (digitsOf s) = true
              then (digitsOf s).drop 2 else digitsOf s) :
    Phone_nor1.format_by_country s ("mexico".data) =
      ("+52-".data) ++ n.take 3 ++ ("-".data) ++ (n.drop 3).take 3 ++ ("-".data) ++ n.drop 6 := by
  subst hn
  unfold Phone_nor1.format_by_country
  dsimp only
  rw [if_neg hd, if_neg (by decide : ¬Phone_nor1.nanpCountry ("mexico".data) = true),
    if_neg (by decide : ¬("mexico".data) = ("united kingdom".data)), if_pos rfl]

theorem fbc_australia {s : Str} (hd : digitsOf s ≠ []) {n : Str}
    (hn : n = if ("61".data).isPrefixOf (digitsOf s) = true
              then (digitsOf s).drop 2 else digitsOf s) :
    Phone_nor1.format_by_country s ("australia".data) =
      ("+61-".data) ++ n.take 1 ++ ("-".data) ++ (n.drop 1).take 4 ++ ("-".data) ++ n.drop 5 := by
  subst hn
  unfold Phone_nor1.format_by_country
  dsimp only
  rw [if_neg hd, if_neg (by decide : ¬Phone_nor1.nanpCountry ("australia".data) = true),
    if_neg (by decide : ¬("australia".data) = ("united kingdom".data)),
    if_neg (by decide : ¬("australia".data) = ("mexico".data)), if_pos rfl]

theorem fbc_nz {s : Str} (hd : digitsOf s ≠ []) {n : Str}
    (hn : n = if ("64".data).isPrefixOf (digitsOf s) = true
              then (digitsOf s).drop 2 else digitsOf s) :
    Phone_nor1.format_by_country s ("new zealand".data) =
      ("+64-".data) ++ n.take 1 ++ ("-".data) ++ (n.drop 1).take 3 ++ ("-".data) ++ n.drop 4 := by
  subst hn
  unfold Phone_nor1.format_by_country
  dsimp only
  rw [if_neg hd, if_neg (by decide : ¬Phone_nor1.nanpCountry ("new zealand".data) = true),
    if_neg (by decide : ¬("new zealand".data) = ("united kingdom".data)),
    if_neg (by decide : ¬("new zealand".data) = ("mexico".data)),
    if_neg (by decide : ¬("new zealand".data) = ("australia".data)), if_pos rfl]

theorem fbc_india {s : Str} (hd : digitsOf s ≠ []) {n : Str}
    (hn : n = if ("91".data).isPrefixOf (digitsOf s) = true
              then (digitsOf s).drop 2 else digitsOf s) :
    Phone_nor1.format_by_country s ("india".data) =
      (if 10 ≤ n.length then ("+91-".data) ++ n.take 2 ++ ("-".data) ++ n.drop 2
       else ("+91-".data) ++ n) := by
  subst hn
  unfold Phone_nor1.format_by_country
  dsimp only
  rw [if_neg hd, if_neg (by decide : ¬Phone_nor1.nanpCountry ("india".data) = true),
    if_neg (by decide : ¬("india".data) = ("united kingdom".data)),
    if_neg (by decide : ¬("india".data) = ("mexico".data)),
    if_neg (by decide : ¬("india".data) = ("australia".data)),
    if_neg (by decide : ¬("india".data) = ("new zealand".data)), if_pos rfl]

theorem fbc_brazil {s : Str} (hd : digitsOf s ≠ []) {n : Str}
    (hn : n = if ("55".data).isPrefixOf (digitsOf s) = true
              then (digitsOf s).drop 2 else digitsOf s) :
    Phone_nor1.format_by_country s ("brazil".data) =
      ("+55-".data) ++ n.take 2 ++ ("-".data) ++ (n.drop 2).take 4 ++ ("-".data) ++ n.drop 6 := by
  subst hn
  unfold Phone_nor1.format_by_country
  dsimp only
  rw [if_neg hd, if_neg (by decide : ¬Phone_nor1.nanpCountry ("brazil".data) = true),
    if_neg (by decide : ¬("brazil".data) = ("united kingdom".data)),
    if_neg (by decide : ¬("brazil".data) = ("mexico".data)),
    if_neg (by decide : ¬("brazil".data) = ("australia".data)),
    if_neg (by decide : ¬("brazil".data) = ("new zealand".data)),
    if_neg (by decide : ¬("brazil".data) = ("india".data)), if_pos rfl]

theorem fbc_id {s c : Str} (hc : Phone_nor1.nanpCountry c = false)
    (h1 : c ≠ ("united kingdom".data)) (h2 : c ≠ ("mexico".data))
    (h3 : c ≠ ("australia".data)) (h4 : c ≠ ("new zealand".data))
    (h5 : c ≠ ("india".data)) (h6 : c ≠ ("brazil".data)) :
    Phone_nor1.format_by_country s c = s := by
  unfold Phone_nor1.format_by_country
  dsimp only
  split
  · rfl
  · split
    · rename_i hx
      rw [hc] at hx
      exact Bool.noConfusion hx
    · rfl

theorem fbc_empty {s c : Str} (hd : digitsOf s = []) :
    Phone_nor1.format_by_country s c = s := by
  unfold Phone_nor1.format_by_country
  dsimp only
  rw [if_pos hd]

/-- C1: for every NANP-country input (USA, Canada, designated Caribbean) on
which the earlier repair strategies fail (the region-constrained parse yields
no valid number, and the digit string is neither the exact 10-digit form nor
the 1-prefixed 11-digit form, leaving more than 10 digits), the forced
fallback of `Phone_nor1.normalize_number` takes the last 10 digits of the
remaining digit string, renders them as +1-(NXX)-NXX-XXXX, labels the result
Forced into US/Caribbean format (the source string carries a warning-emoji
prefix), and produces a non-empty rendered number. -/
theorem claim_C1_forced_fallback (itab etab : Str → Option Str) (allCodes : List Str)
    (parseUS : Str → Option (Nat × Str)) (number c K : Str)
    (hres : resolveCode itab etab c = some K)
    (hnanp : Phone_nor1.nanpCountry c = true)
    (hfail : parseUS (Phone_nor1.cleanedPlus number) = none)
    (hlen : 10 < (digitsOf number).length)
    (h11 : ¬(("1".data).isPrefixOf (digitsOf number) = true ∧ (digitsOf number).length = 11)) :
    Phone_nor1.normalize_number itab etab allCodes parseUS number c =
      (("+1-(".data) ++ (lastN 10 (digitsOf number)).take 3 ++ (")-".data)
         ++ ((lastN 10 (digitsOf number)).drop 3).take 3 ++ ("-".data)
         ++ (lastN 10 (digitsOf number)).drop 6,
       ("⚠️ Forced into US/Caribbean format".data)) ∧
    (Phone_nor1.normalize_number itab etab allCodes parseUS number c).1 ≠ [] := by
  have hdig : digitsOf (("+1".data) ++ lastN 10 (digitsOf number))
      = '1' :: lastN 10 (digitsOf number) := by
    rw [digitsOf_append, digitsOf_sub (lastN_sub 10 (digitsOf number))]
    rw [show digitsOf ("+1".data) = ('1' :: ([] : Str)) from by decide]
    rfl
  have hlen10 : (lastN 10 (digitsOf number)).length = 10 := by
    rw [lastN_length]
    omega
  constructor
  · rw [nor1_nanp_fallback hres hnanp hfail hlen h11]
    rw [fbc_nanp (by rw [hdig]; exact List.cons_ne_nil _ _) hnanp, hdig,
      lastN_cons_eq hlen10]
  · rw [nor1_nanp_fallback hres hnanp hfail hlen h11]
    exact fbc_ne_nil (cat_ne_nil (lastN 10 (digitsOf number))
      (by decide : ("+1".data) ≠ ([] : Str)))

/-- Witness for C1: the spec example with a stray UK code, digits
445551234567, forced into +1-(555)-123-4567. -/
theorem claim_C1_witness :
    Phone_nor1.normalize_number demoItab demoEtab demoCodes demoParse
        ("+44 555 123 4567".data) ("united states".data)
      = (("+1-(555)-123-4567".data), ("⚠️ Forced into US/Caribbean format".data)) := by
  rw [(claim_C1_forced_fallback demoItab demoEtab demoCodes demoParse
      ("+44 555 123 4567".data) ("united states".data) ("1".data)
      (by decide) (by decide) rfl (by decide) (by decide)).1]
  decide

/-- C6: the matched code of the generic corrector is always the longest known
dialing code that is a prefix of the digit string: whenever the scan returns
a code it is a known prefix of maximal length, and whenever any known code is
a prefix the scan returns one, so a shorter code never wins over a longer
prefix. -/
theorem claim_C6_longest_match (allCodes : List Str) (digits : Str) :
    (∀ m, Phone_nor1.matched_code allCodes digits = some m →
      m ∈ allCodes ∧ m.isPrefixOf digits = true ∧
        ∀ code ∈ allCodes, code.isPrefixOf digits = true → code.length ≤ m.length) ∧
    (∀ code ∈ allCodes, code.isPrefixOf digits = true →
      Phone_nor1.matched_code allCodes digits ≠ none) := by
  constructor
  · intro m hm
    unfold Phone_nor1.matched_code at hm
    have hs := firstMatch_sound hm
    refine ⟨mem_sortByLenDesc.mp hs.1, hs.2, ?_⟩
    intro code hc hcp
    exact firstMatch_longest (pairwise_sortByLenDesc allCodes) hm code
      (mem_sortByLenDesc.mpr hc) hcp
  · intro code hc hcp
    unfold Phone_nor1.matched_code
    exact firstMatch_complete (mem_sortByLenDesc.mpr hc) hcp

/-- Witness for C6: with codes 1 and 1555 both known and both prefixes of
15551234567, the match exists and the shorter code 1 cannot beat the longer
prefix. -/
theorem claim_C6_witness :
    ("1".data).length ≤ ("1555".data).length ∧
    Phone_nor1.matched_code [("1".data), ("1555".data)] ("15551234567".data) ≠ none := by
  constructor
  · exact ((claim_C6_longest_match [("1".data), ("1555".data)] ("15551234567".data)).1
      ("1555".data) (by decide)).2.2 ("1".data) (by decide) (by decide)
  · exact (claim_C6_longest_match [("1".data), ("1555".data)] ("15551234567".data)).2
      ("1".data) (by decide) (by decide)

/-- C4: for a non-NANP country whose digit string starts with a known dialing
code different from the correct one (general case, matched code not starting
with 1), `Phone_nor1.normalize_number` drops the matched code length of
leading digits and prepends the correct code, labelled Corrected from X to Y;
in particular normalize of 445551234567 for india yields +91-55-51234567. -/
theorem claim_C4_generic_correction :
    (∀ (itab etab : Str → Option Str) (allCodes : List Str)
        (parseUS : Str → Option (Nat × Str)) (number c K m : Str),
        resolveCode itab etab c = some K →
        Phone_nor1.nanpCountry c = false →
        digitsOf number ≠ [] →
        Phone_nor1.matched_code allCodes (digitsOf number) = some m →
        ("1".data).isPrefixOf m = false → m ≠ K →
        Phone_nor1.normalize_number itab etab allCodes parseUS number c =
          (Phone_nor1.format_by_country ('+' :: (K ++ (digitsOf number).drop m.length)) c,
           ("🔄 Corrected from ".data) ++ m ++ (" → ".data) ++ K)) ∧
    Phone_nor1.normalize_number demoItab demoEtab demoCodes demoParse
        ("445551234567".data) ("india".data)
      = (("+91-55-51234567".data), ("🔄 Corrected from 44 → 91".data)) := by
  constructor
  · intro itab etab allCodes parseUS number c K m hres hn hd hm hp1 hne
    rw [nor1_corr_matched_ne hd hres hn hm hne, if_neg (by simp [hp1])]
  · decide

/-- Witness for C4: the general branch applied at a concrete spaced input. -/
theorem claim_C4_witness :
    Phone_nor1.normalize_number demoItab demoEtab demoCodes demoParse
        ("44 5551234567".data) ("india".data)
      = (("+91-55-51234567".data), ("🔄 Corrected from 44 → 91".data)) := by
  rw [claim_C4_generic_correction.1 demoItab demoEtab demoCodes demoParse
      ("44 5551234567".data) ("india".data) ("91".data) ("44".data)
      (by decide) (by decide) (by decide) (by decide) (by decide) (by decide)]
  decide

/-- C5: for a non-NANP input whose matched dialing code starts with 1 while
the correct code is not 1 (and differs from the matched code), the corrector
drops only the single leading 1 digit, not the full matched-code length,
before prepending the correct code, labelled Corrected from X to Y. -/
theorem claim_C5_leading_one (itab etab : Str → Option Str) (allCodes : List Str)
    (parseUS : Str → Option (Nat × Str)) (number c K m : Str)
    (hres : resolveCode itab etab c = some K)
    (hn : Phone_nor1.nanpCountry c = false)
    (hd : digitsOf number ≠ [])
    (hm : Phone_nor1.matched_code allCodes (digitsOf number) = some m)
    (hp1 : ("1".data).isPrefixOf m = true)
    (hK : K ≠ ("1".data)) (hne : m ≠ K) :
    Phone_nor1.normalize_number itab etab allCodes parseUS number c =
      (Phone_nor1.format_by_country ('+' :: (K ++ (digitsOf number).drop 1)) c,
       ("🔄 Corrected from ".data) ++ m ++ (" → ".data) ++ K) := by
  rw [nor1_corr_matched_ne hd hres hn hm hne, if_pos ⟨hp1, hK⟩]

/-- Witness for C5: digits 15551234567 for india match code 1; only the single
leading 1 is dropped before prepending 91. -/
theorem claim_C5_witness :
    Phone_nor1.normalize_number demoItab demoEtab demoCodes demoParse
        ("15551234567".data) ("india".data)
      = (("+91-55-51234567".data), ("🔄 Corrected from 1 → 91".data)) := by
  rw [claim_C5_leading_one demoItab demoEtab demoCodes demoParse ("15551234567".data)
      ("india".data) ("91".data) ("1".data) (by decide) (by decide) (by decide)
      (by decide) (by decide) (by decide) (by decide)]
  decide

/-- C7: for Trinidad and Tobago, whenever the extracted digit string begins
with 1868868 and has length greater than 11, `Phone_norr5.normalize_number`
keeps exactly the last 7 digits as the subscriber number and returns them
formatted as +1-(868)-XXX-XXXX with the Valid and Matched label; the result
holds for every parse oracle, so no later strategy runs. -/
theorem claim_C7_trinidad (itab etab : Str → Option Str) (parse5 : Str → Option Str)
    (number K : Str)
    (hres : resolveCode itab etab ("trinidad and tobago".data) = some K)
    (hpre : ("1868868".data).isPrefixOf (digitsOf number) = true)
    (hlen : 11 < (digitsOf number).length) :
    Phone_norr5.normalize_number itab etab parse5 number ("trinidad and tobago".data)
      = (("+1-(868)-".data) ++ (lastN 7 (digitsOf number)).take 3 ++ ("-".data)
           ++ (lastN 7 (digitsOf number)).drop 3,
         ("✅ Valid & Matched".data),
         Phone_norr5.compute_comparison number
           (("+1-(868)-".data) ++ (lastN 7 (digitsOf number)).take 3 ++ ("-".data)
              ++ (lastN 7 (digitsOf number)).drop 3)) := by
  have hd : digitsOf number ≠ [] := by
    intro h
    rw [h] at hlen
    simp at hlen
  have hfold : Phone_norr5.foldCountry ("trinidad and tobago".data)
      = ("trinidad and tobago".data) := by decide
  unfold Phone_norr5.normalize_number
  rw [if_neg hd, hfold, hres]
  dsimp only
  split
  · split
    · rfl
    · rename_i h
      exact absurd ⟨rfl, hpre, hlen⟩ h
  · rename_i h
    exact absurd (by decide : Phone_norr5.nanpCountry ("trinidad and tobago".data) = true) h

/-- Witness for C7: the spec example 18688681234567 becomes +1-(868)-123-4567. -/
theorem claim_C7_witness :
    Phone_norr5.normalize_number demoItab demoEtab demoParseStr
        ("18688681234567".data) ("trinidad and tobago".data)
      = (("+1-(868)-123-4567".data), ("✅ Valid & Matched".data),
         ("Removed duplicated 868 prefix + reformatted".data)) := by
  rw [claim_C7_trinidad demoItab demoEtab demoParseStr ("18688681234567".data) ("1".data)
      (by decide) (by decide) (by decide)]
  decide

/-- C3 counterexample: `Phone_nor1.normalize_number` on an unknown country
returns an empty corrected number, not the original number unchanged as the
claim states. -/
theorem claim_C3_counterexample :
    Phone_nor1.normalize_number demoItab demoEtab demoCodes demoParse
        ("5551234567".data) ("atlantis".data) = ([], ("❌ Unknown country".data)) ∧
    ([] : Str) ≠ ("5551234567".data) := by
  constructor
  · decide
  · decide

/-- C3 amended: on an unresolvable country name, `Phone_norr5` (for inputs
containing a digit) and `PhoneNor3` return the original number unchanged with
a visible Unknown country label, while `Phone_nor1` returns an empty
corrected number with the same label; none of the three guesses a code. -/
theorem claim_C3_amended :
    (∀ (itab etab : Str → Option Str) (parse5 : Str → Option Str) (number c : Str),
        digitsOf number ≠ [] →
        resolveCode itab etab (Phone_norr5.foldCountry c) = none →
        Phone_norr5.normalize_number itab etab parse5 number c
          = (number, ("❌ Unknown country".data), ("Unknown country".data))) ∧
    (∀ (itab etab : Str → Option Str) (allCodes : List Str) (parse3 : Str → Option Str)
        (number c : Str),
        resolveCode itab etab c = none →
        PhoneNor3.normalize_number itab etab allCodes parse3 number c
          = (number, ("❌ Unknown country".data))) ∧
    (∀ (itab etab : Str → Option Str) (allCodes : List Str)
        (parseUS : Str → Option (Nat × Str)) (number c : Str),
        digitsOf number ≠ [] →
        resolveCode itab etab c = none →
        Phone_nor1.normalize_number itab etab allCodes parseUS number c
          = ([], ("❌ Unknown country".data))) := by
  refine ⟨?_, ?_, ?_⟩
  · intro itab etab parse5 number c hd hres
    unfold Phone_norr5.normalize_number
    rw [if_neg hd, hres]
  · intro itab etab allCodes parse3 number c hres
    unfold PhoneNor3.normalize_number
    rw [hres]
  · intro itab etab allCodes parseUS number c hd hres
    exact nor1_unknown hd hres

/-- Witness for C3: the spec example, atlantis is unknown and the original
number propagates unchanged through `Phone_norr5.normalize_number`. -/
theorem claim_C3_witness :
    Phone_norr5.normalize_number demoItab demoEtab demoParseStr
        ("5551234567".data) ("atlantis".data)
      = (("5551234567".data), ("❌ Unknown country".data), ("Unknown country".data)) :=
  claim_C3_amended.1 demoItab demoEtab demoParseStr ("5551234567".data) ("atlantis".data)
    (by decide) (by decide)

/-- C9 counterexample: the classifier strips surrounding whitespace before its
equality check, so on a pair that differs only by a leading space it answers
Unchanged even though the strings are not verbatim equal, the duplication
check does not match, and the added-plus-one check does match; the claimed
first-match cascade over the raw strings would answer the Added-prefix label
instead. -/
theorem claim_C9_counterexample :
    Phone_norr5.compute_comparison (" +1-(555)-123-4567".data) ("+1-(555)-123-4567".data)
        = ("Unchanged".data) ∧
    (" +1-(555)-123-4567".data) ≠ ("+1-(555)-123-4567".data) ∧
    ("+1-(".data).isPrefixOf ("+1-(555)-123-4567".data) = true ∧
    ("+1".data).isPrefixOf (" +1-(555)-123-4567".data) = false ∧
    containsSub ("868".data) (" +1-(555)-123-4567".data) = false := by
  refine ⟨by decide, by decide, by decide, by decide, by decide⟩

/-- C9 amended: the comparison classifier equals the claimed fixed-order
first-match cascade, amended in one point only: both arguments are stripped
of surrounding whitespace first and every check reads the stripped strings. -/
theorem claim_C9_amended (original corrected : Str) :
    Phone_norr5.compute_comparison original corrected
      = classifyCascade original corrected := rfl

/-- C2 counterexample: the all-zero input 0000 for india contains digits, the
country is known and not NANP, yet `Phone_nor1.normalize_number` returns
(empty, Missing Number) because stripping leading zeros leaves nothing; this
case is outside the claimed exhaustive list of Missing Number causes. -/
theorem claim_C2_counterexample :
    Phone_nor1.normalize_number demoItab demoEtab demoCodes demoParse
        ("0000".data) ("india".data) = ([], ("Missing Number".data)) ∧
    digitsOf ("0000".data) ≠ [] ∧
    Phone_nor1.nanpCountry ("india".data) = false ∧
    resolveCode demoItab demoEtab ("india".data) = some ("91".data) := by
  refine ⟨by decide, by decide, by decide, by decide⟩

/-- C2 amended: `Phone_nor1.normalize_number` returns the pair (empty
corrected number, Missing Number) exactly when the input contains no digit at
all, or the country is known and either (NANP) the parse fails and fewer than
10 digits remain, or (non-NANP) no known code is a prefix and the digit
string consists only of zeros, so stripping leading zeros leaves nothing; in
every other case with a known country a non-empty corrected number is
returned. -/
theorem claim_C2_amended (itab etab : Str → Option Str) (allCodes : List Str)
    (parseUS : Str → Option (Nat × Str)) (number c : Str) :
    (Phone_nor1.normalize_number itab etab allCodes parseUS number c
        = ([], ("Missing Number".data)) ↔
      digitsOf number = [] ∨
        ∃ K, resolveCode itab etab c = some K ∧
          ((Phone_nor1.nanpCountry c = true
              ∧ parseUS (Phone_nor1.cleanedPlus number) = none
              ∧ (digitsOf number).length < 10) ∨
           (Phone_nor1.nanpCountry c = false
              ∧ Phone_nor1.matched_code allCodes (digitsOf number) = none
              ∧ (digitsOf number).dropWhile (fun ch => ch == '0') = []))) ∧
    (∀ K, resolveCode itab etab c = some K →
      Phone_nor1.normalize_number itab etab allCodes parseUS number c
          ≠ ([], ("Missing Number".data)) →
      (Phone_nor1.normalize_number itab etab allCodes parseUS number c).1 ≠ []) := by
  have step : ∀ r : Str × Str, r.1 ≠ [] → r ≠ ([], ("Missing Number".data)) := by
    intro r h1 h
    rw [h] at h1
    exact h1 rfl
  by_cases hd : digitsOf number = []
  · constructor
    · rw [nor1_missing_top hd]
      simp [hd]
    · intro K hK hne
      exact absurd (nor1_missing_top hd) hne
  · cases hres : resolveCode itab etab c with
    | none =>
      constructor
      · rw [nor1_unknown hd hres]
        constructor
        · intro h
          have h2 : ("❌ Unknown country".data) = ("Missing Number".data) :=
            congrArg Prod.snd h
          exact absurd h2 (by decide)
        · rintro (h | ⟨K, hK, _⟩)
          · exact absurd h hd
          · exact Option.noConfusion hK
      · intro K hK
        exact Option.noConfusion hK
    | some K0 =>
      cases hn : Phone_nor1.nanpCountry c with
      | true =>
        cases hp : parseUS (Phone_nor1.cleanedPlus number) with
        | some p =>
          have hres1 : (Phone_nor1.normalize_number itab etab allCodes parseUS number c).1
              ≠ [] := by
            by_cases h1 : p.1 = 1
            · rw [nor1_nanp_parsed_one hd hres hn hp h1]
              exact fbc_ne_nil (List.cons_ne_nil _ _)
            · rw [nor1_nanp_parsed_other hd hres hn hp h1]
              exact fbc_ne_nil (cat_ne_nil p.2 (by decide : ("+1".data) ≠ ([] : Str)))
          constructor
          · constructor
            · intro h
              exact absurd h (step _ hres1)
            · rintro (h | ⟨K2, hK2, hcase⟩)
              · exact absurd h hd
              · rcases hcase with ⟨_, hpn, _⟩ | ⟨hnf, _, _⟩
                · exact Option.noConfusion hpn
                · exact Bool.noConfusion hnf
          · intro K2 _ _
            exact hres1
        | none =>
          rcases Nat.lt_trichotomy (digitsOf number).length 10 with hC | hB | hGT
          · rw [nor1_nanp_short hd hres hn hp hC]
            constructor
            · constructor
              · intro _
                exact Or.inr ⟨K0, rfl, Or.inl ⟨rfl, rfl, hC⟩⟩
              · intro _
                rfl
            · intro K2 _ hne
              exact absurd rfl hne
          · have hres1 : (Phone_nor1.normalize_number itab etab allCodes parseUS number c).1
                ≠ [] := by
              rw [nor1_nanp_ten hd hres hn hp (by omega) hB]
              exact fbc_ne_nil (cat_ne_nil (digitsOf number)
                (by decide : ("+1".data) ≠ ([] : Str)))
            constructor
            · constructor
              · intro h
                exact absurd h (step _ hres1)
              · rintro (h | ⟨K2, hK2, hcase⟩)
                · exact absurd h hd
                · rcases hcase with ⟨_, _, hc10⟩ | ⟨hnf, _, _⟩
                  · exact absurd hc10 (by omega)
                  · exact Bool.noConfusion hnf
            · intro K2 _ _
              exact hres1
          · by_cases hA : ("1".data).isPrefixOf (digitsOf number) = true
                ∧ (digitsOf number).length = 11
            · have hres1 : (Phone_nor1.normalize_number itab etab allCodes parseUS
                  number c).1 ≠ [] := by
                rw [nor1_nanp_eleven hd hres hn hp hA]
                exact fbc_ne_nil (List.cons_ne_nil _ _)
              constructor
              · constructor
                · intro h
                  exact absurd h (step _ hres1)
                · rintro (h | ⟨K2, hK2, hcase⟩)
                  · exact absurd h hd
                  · rcases hcase with ⟨_, _, hc10⟩ | ⟨hnf, _, _⟩
                    · exact absurd hc10 (by omega)
                    · exact Bool.noConfusion hnf
              · intro K2 _ _
                exact hres1
            · have hres1 : (Phone_nor1.normalize_number itab etab allCodes parseUS
                  number c).1 ≠ [] := by
                rw [nor1_nanp_fallback hres hn hp hGT hA]
                exact fbc_ne_nil (cat_ne_nil (lastN 10 (digitsOf number))
                  (by decide : ("+1".data) ≠ ([] : Str)))
              constructor
              · constructor
                · intro h
                  exact absurd h (step _ hres1)
                · rintro (h | ⟨K2, hK2, hcase⟩)
                  · exact absurd h hd
                  · rcases hcase with ⟨_, _, hc10⟩ | ⟨hnf, _, _⟩
                    · exact absurd hc10 (by omega)
                    · exact Bool.noConfusion hnf
              · intro K2 _ _
                exact hres1
      | false =>
        cases hm : Phone_nor1.matched_code allCodes (digitsOf number) with
        | some m =>
          have hres1 : (Phone_nor1.normalize_number itab etab allCodes parseUS number c).1
              ≠ [] := by
            by_cases heq : m = K0
            · rw [nor1_corr_matched_eq hd hres hn hm heq]
              exact fbc_ne_nil (List.cons_ne_nil _ _)
            · rw [nor1_corr_matched_ne hd hres hn hm heq]
              exact fbc_ne_nil (List.cons_ne_nil _ _)
          constructor
          · constructor
            · intro h
              exact absurd h (step _ hres1)
            · rintro (h | ⟨K2, hK2, hcase⟩)
              · exact absurd h hd
              · rcases hcase with ⟨hnt, _, _⟩ | ⟨_, hmn, _⟩
                · exact Bool.noConfusion hnt
                · exact Option.noConfusion hmn
          · intro K2 _ _
            exact hres1
        | none =>
          by_cases hz : (digitsOf number).dropWhile (fun ch => ch == '0') = []
          · rw [nor1_corr_zeros hd hres hn hm hz]
            constructor
            · constructor
              · intro _
                exact Or.inr ⟨K0, rfl, Or.inr ⟨rfl, rfl, hz⟩⟩
              · intro _
                rfl
            · intro K2 _ hne
              exact absurd rfl hne
          · have hres1 : (Phone_nor1.normalize_number itab etab allCodes parseUS number c).1
                ≠ [] := by
              rw [nor1_corr_added hd hres hn hm hz]
              exact fbc_ne_nil (List.cons_ne_nil _ _)
            constructor
            · constructor
              · intro h
                exact absurd h (step _ hres1)
              · rintro (h | ⟨K2, hK2, hcase⟩)
                · exact absurd h hd
                · rcases hcase with ⟨hnt, _, _⟩ | ⟨_, _, hzz⟩
                  · exact Bool.noConfusion hnt
                  · exact absurd hzz hz
            · intro K2 _ _
              exact hres1

/-- Witness for C2: the amended condition applied concretely, an all-zero
digit string with spaces for a known non-NANP country yields Missing Number. -/
theorem claim_C2_witness :
    Phone_nor1.normalize_number demoItab demoEtab demoCodes demoParse
        ("00 00".data) ("india".data) = ([], ("Missing Number".data)) :=
  (claim_C2_amended demoItab demoEtab demoCodes demoParse ("00 00".data)
      ("india".data)).1.mpr
    (Or.inr ⟨("91".data), by decide, Or.inr ⟨by decide, by decide, by decide⟩⟩)

theorem stripped_all {s : Str} (code : Str) :
    ∀ ch ∈ (if code.isPrefixOf (digitsOf s) = true then (digitsOf s).drop 2 else digitsOf s),
      ch.isDigit = true := by
  intro ch hch
  split at hch
  · exact digitsOf_all ch (List.drop_subset _ _ hch)
  · exact digitsOf_all ch hch

theorem digitsOf_fbc_nanp {s c : Str} (hd : digitsOf s ≠ [])
    (hc : Phone_nor1.nanpCountry c = true) :
    digitsOf (Phone_nor1.format_by_country s c) = ("1".data) ++ lastN 10 (digitsOf s) := by
  rw [fbc_nanp hd hc]
  set n := lastN 10 (digitsOf s) with hn
  have hall : ∀ ch ∈ n, ch.isDigit = true := by
    rw [hn]
    exact fun ch hch => digitsOf_all ch (lastN_sub _ _ hch)
  have h1 : digitsOf (n.take 3) = n.take 3 :=
    digitsOf_of_all fun ch hch => hall ch (List.take_subset _ _ hch)
  have h2 : digitsOf ((n.drop 3).take 3) = (n.drop 3).take 3 :=
    digitsOf_of_all fun ch hch => hall ch (List.drop_subset _ _ (List.take_subset _ _ hch))
  have h3 : digitsOf (n.drop 6) = n.drop 6 :=
    digitsOf_of_all fun ch hch => hall ch (List.drop_subset _ _ hch)
  simp only [digitsOf_append, h1, h2, h3]
  rw [show digitsOf ("+1-(".data) = ("1".data) from by decide,
      show digitsOf (")-".data) = ([] : Str) from by decide,
      show digitsOf ("-".data) = ([] : Str) from by decide]
  simp only [List.append_nil, List.nil_append, List.append_assoc]
  rw [regroup 3 3 6 (by norm_num) n]

theorem digitsOf_fbc_uk {s : Str} (hd : digitsOf s ≠ []) :
    digitsOf (Phone_nor1.format_by_country s ("united kingdom".data)) =
      ("44".data) ++ (if ("44".data).isPrefixOf (digitsOf s) = true
                      then (digitsOf s).drop 2 else digitsOf s) := by
  rw [fbc_uk hd rfl]
  set n := (if ("44".data).isPrefixOf (digitsOf s) = true then (digitsOf s).drop 2
            else digitsOf s) with hn
  have hall : ∀ ch ∈ n, ch.isDigit = true := by
    rw [hn]
    exact stripped_all ("44".data)
  have h1 : digitsOf (n.take 4) = n.take 4 :=
    digitsOf_of_all fun ch hch => hall ch (List.take_subset _ _ hch)
  have h2 : digitsOf ((n.drop 4).take 3) = (n.drop 4).take 3 :=
    digitsOf_of_all fun ch hch => hall ch (List.drop_subset _ _ (List.take_subset _ _ hch))
  have h3 : digitsOf (n.drop 7) = n.drop 7 :=
    digitsOf_of_all fun ch hch => hall ch (List.drop_subset _ _ hch)
  simp only [digitsOf_append, h1, h2, h3]
  rw [show digitsOf ("+44-".data) = ("44".data) from by decide,
      show digitsOf ("-".data) = ([] : Str) from by decide]
  simp only [List.append_nil, List.nil_append, List.append_assoc]
  rw [regroup 4 3 7 (by norm_num) n]

theorem digitsOf_fbc_mexico {s : Str} (hd : digitsOf s ≠ []) :
    digitsOf (Phone_nor1.format_by_country s ("mexico".data)) =
      ("52".data) ++ (if ("52".data).isPrefixOf (digitsOf s) = true
                      then (digitsOf s).drop 2 else digitsOf s) := by
  rw [fbc_mexico hd rfl]
  set n := (if ("52".data).isPrefixOf (digitsOf s) = true then (digitsOf s).drop 2
            else digitsOf s) with hn
  have hall : ∀ ch ∈ n, ch.isDigit = true := by
    rw [hn]
    exact stripped_all ("52".data)
  have h1 : digitsOf (n.take 3) = n.take 3 :=
    digitsOf_of_all fun ch hch => hall ch (List.take_subset _ _ hch)
  have h2 : digitsOf ((n.drop 3).take 3) = (n.drop 3).take 3 :=
    digitsOf_of_all fun ch hch => hall ch (List.drop_subset _ _ (List.take_subset _ _ hch))
  have h3 : digitsOf (n.drop 6) = n.drop 6 :=
    digitsOf_of_all fun ch hch => hall ch (List.drop_subset _ _ hch)
  simp only [digitsOf_append, h1, h2, h3]
  rw [show digitsOf ("+52-".data) = ("52".data) from by decide,
      show digitsOf ("-".data) = ([] : Str) from by decide]
  simp only [List.append_nil, List.nil_append, List.append_assoc]
  rw [regroup 3 3 6 (by norm_num) n]

theorem digitsOf_fbc_australia {s : Str} (hd : digitsOf s ≠ []) :
    digitsOf (Phone_nor1.format_by_country s ("australia".data)) =
      ("61".data) ++ (if ("61".data).isPrefixOf (digitsOf s) = true
                      then (digitsOf s).drop 2 else digitsOf s) := by
  rw [fbc_australia hd rfl]
  set n := (if ("61".data).isPrefixOf (digitsOf s) = true then (digitsOf s).drop 2
            else digitsOf s) with hn
  have hall : ∀ ch ∈ n, ch.isDigit = true := by
    rw [hn]
    exact stripped_all ("61".data)
  have h1 : digitsOf (n.take 1) = n.take 1 :=
    digitsOf_of_all fun ch hch => hall ch (List.take_subset _ _ hch)
  have h2 : digitsOf ((n.drop 1).take 4) = (n.drop 1).take 4 :=
    digitsOf_of_all fun ch hch => hall ch (List.drop_subset _ _ (List.take_subset _ _ hch))
  have h3 : digitsOf (n.drop 5) = n.drop 5 :=
    digitsOf_of_all fun ch hch => hall ch (List.drop_subset _ _ hch)
  simp only [digitsOf_append, h1, h2, h3]
  rw [show digitsOf ("+61-".data) = ("61".data) from by decide,
      show digitsOf ("-".data) = ([] : Str) from by decide]
  simp only [List.append_nil, List.nil_append, List.append_assoc]
  rw [regroup 1 4 5 (by norm_num) n]

theorem digitsOf_fbc_nz {s : Str} (hd : digitsOf s ≠ []) :
    digitsOf (Phone_nor1.format_by_country s ("new zealand".data)) =
      ("64".data) ++ (if ("64".data).isPrefixOf (digitsOf s) = true
                      then (digitsOf s).drop 2 else digitsOf s) := by
  rw [fbc_nz hd rfl]
  set n := (if ("64".data).isPrefixOf (digitsOf s) = true then (digitsOf s).drop 2
            else digitsOf s) with hn
  have hall : ∀ ch ∈ n, ch.isDigit = true := by
    rw [hn]
    exact stripped_all ("64".data)
  have h1 : digitsOf (n.take 1) = n.take 1 :=
    digitsOf_of_all fun ch hch => hall ch (List.take_subset _ _ hch)
  have h2 : digitsOf ((n.drop 1).take 3) = (n.drop 1).take 3 :=
    digitsOf_of_all fun ch hch => hall ch (List.drop_subset _ _ (List.take_subset _ _ hch))
  have h3 : digitsOf (n.drop 4) = n.drop 4 :=
    digitsOf_of_all fun ch hch => hall ch (List.drop_subset _ _ hch)
  simp only [digitsOf_append, h1, h2, h3]
  rw [show digitsOf ("+64-".data) = ("64".data) from by decide,
      show digitsOf ("-".data) = ([] : Str) from by decide]
  simp only [List.append_nil, List.nil_append, List.append_assoc]
  rw [regroup 1 3 4 (by norm_num) n]

theorem digitsOf_fbc_brazil {s : Str} (hd : digitsOf s ≠ []) :
    digitsOf (Phone_nor1.format_by_country s ("brazil".data)) =
      ("55".data) ++ (if ("55".data).isPrefixOf (digitsOf s) = true
                      then (digitsOf s).drop 2 else digitsOf s) := by
  rw [fbc_brazil hd rfl]
  set n := (if ("55".data).isPrefixOf (digitsOf s) = true then (digitsOf s).drop 2
            else digitsOf s) with hn
  have hall : ∀ ch ∈ n, ch.isDigit = true := by
    rw [hn]
    exact stripped_all ("55".data)
  have h1 : digitsOf (n.take 2) = n.take 2 :=
    digitsOf_of_all fun ch hch => hall ch (List.take_subset _ _ hch)
  have h2 : digitsOf ((n.drop 2).take 4) = (n.drop 2).take 4 :=
    digitsOf_of_all fun ch hch => hall ch (List.drop_subset _ _ (List.take_subset _ _ hch))
  have h3 : digitsOf (n.drop 6) = n.drop 6 :=
    digitsOf_of_all fun ch hch => hall ch (List.drop_subset _ _ hch)
  simp only [digitsOf_append, h1, h2, h3]
  rw [show digitsOf ("+55-".data) = ("55".data) from by decide,
      show digitsOf ("-".data) = ([] : Str) from by decide]
  simp only [List.append_nil, List.nil_append, List.append_assoc]
  rw [regroup 2 4 6 (by norm_num) n]

theorem digitsOf_fbc_india {s : Str} (hd : digitsOf s ≠ []) :
    digitsOf (Phone_nor1.format_by_country s ("india".data)) =
      ("91".data) ++ (if ("91".data).isPrefixOf (digitsOf s) = true
                      then (digitsOf s).drop 2 else digitsOf s) := by
  rw [fbc_india hd rfl]
  set n := (if ("91".data).isPrefixOf (digitsOf s) = true then (digitsOf s).drop 2
            else digitsOf s) with hn
  have hall : ∀ ch ∈ n, ch.isDigit = true := by
    rw [hn]
    exact stripped_all ("91".data)
  split
  · have h1 : digitsOf (n.take 2) = n.take 2 :=
      digitsOf_of_all fun ch hch => hall ch (List.take_subset _ _ hch)
    have h2 : digitsOf (n.drop 2) = n.drop 2 :=
      digitsOf_of_all fun ch hch => hall ch (List.drop_subset _ _ hch)
    simp only [digitsOf_append, h1, h2]
    rw [show digitsOf ("+91-".data) = ("91".data) from by decide,
        show digitsOf ("-".data) = ([] : Str) from by decide]
    simp only [List.append_nil, List.nil_append, List.append_assoc, List.take_append_drop]
  · have h1 : digitsOf n = n := digitsOf_of_all hall
    simp only [digitsOf_append, h1]
    rw [show digitsOf ("+91-".data) = ("91".data) from by decide]

/-- C8 counterexample: the NANP branch of the formatter of `Phone_nor1.py`
does alter which digits are present: on input +4420 for usa it emits
+1-(442)-0-, inserting a digit 1 that the input did not contain. -/
theorem claim_C8_counterexample :
    Phone_nor1.format_by_country ("+4420".data) ("usa".data) = ("+1-(442)-0-".data) ∧
    digitsOf (Phone_nor1.format_by_country ("+4420".data) ("usa".data))
      ≠ digitsOf ("+4420".data) := by
  refine ⟨by decide, by decide⟩

/-- C8 amended: the per-country display formatter is the identity for any
country key with no entry in the rendering table, and for inputs with no
digits; on rendering-table entries it only inserts separators around a digit
string derived from the input as follows: for NANP keys the output digits are
1 followed by the last 10 input digits (so digits can be dropped and a 1
added), and for the other special keys the output digits are the country
code followed by the input digits with that code stripped when it was a
prefix (so the code digits are added when absent).  It does not in general
preserve which digits are present. -/
theorem claim_C8_amended (s : Str) :
    (∀ c, Phone_nor1.nanpCountry c = false →
        c ≠ ("united kingdom".data) → c ≠ ("mexico".data) → c ≠ ("australia".data) →
        c ≠ ("new zealand".data) → c ≠ ("india".data) → c ≠ ("brazil".data) →
        Phone_nor1.format_by_country s c = s) ∧
    (digitsOf s = [] → ∀ c, Phone_nor1.format_by_country s c = s) ∧
    (digitsOf s ≠ [] → ∀ c, Phone_nor1.nanpCountry c = true →
        digitsOf (Phone_nor1.format_by_country s c) = ("1".data) ++ lastN 10 (digitsOf s)) ∧
    (digitsOf s ≠ [] →
        digitsOf (Phone_nor1.format_by_country s ("united kingdom".data)) =
          ("44".data) ++ (if ("44".data).isPrefixOf (digitsOf s) = true
                          then (digitsOf s).drop 2 else digitsOf s)) ∧
    (digitsOf s ≠ [] →
        digitsOf (Phone_nor1.format_by_country s ("mexico".data)) =
          ("52".data) ++ (if ("52".data).isPrefixOf (digitsOf s) = true
                          then (digitsOf s).drop 2 else digitsOf s)) ∧
    (digitsOf s ≠ [] →
        digitsOf (Phone_nor1.format_by_country s ("australia".data)) =
          ("61".data) ++ (if ("61".data).isPrefixOf (digitsOf s) = true
                          then (digitsOf s).drop 2 else digitsOf s)) ∧
    (digitsOf s ≠ [] →
        digitsOf (Phone_nor1.format_by_country s ("new zealand".data)) =
          ("64".data) ++ (if ("64".data).isPrefixOf (digitsOf s) = true
                          then (digitsOf s).drop 2 else digitsOf s)) ∧
    (digitsOf s ≠ [] →
        digitsOf (Phone_nor1.format_by_country s ("india".data)) =
          ("91".data) ++ (if ("91".data).isPrefixOf (digitsOf s) = true
                          then (digitsOf s).drop 2 else digitsOf s)) ∧
    (digitsOf s ≠ [] →
        digitsOf (Phone_nor1.format_by_country s ("brazil".data)) =
          ("55".data) ++ (if ("55".data).isPrefixOf (digitsOf s) = true
                          then (digitsOf s).drop 2 else digitsOf s)) := by
  refine ⟨?_, ?_, ?_, ?_, ?_, ?_, ?_, ?_, ?_⟩
  · intro c hc h1 h2 h3 h4 h5 h6
    exact fbc_id hc h1 h2 h3 h4 h5 h6
  · intro hd c
    exact fbc_empty hd
  · intro hd c hc
    exact digitsOf_fbc_nanp hd hc
  · intro hd
    exact digitsOf_fbc_uk hd
  · intro hd
    exact digitsOf_fbc_mexico hd
  · intro hd
    exact digitsOf_fbc_australia hd
  · intro hd
    exact digitsOf_fbc_nz hd
  · intro hd
    exact digitsOf_fbc_india hd
  · intro hd
    exact digitsOf_fbc_brazil hd

/-- Witness for C8: on input +4420 with the NANP key usa, the output digits
are exactly 1 followed by the last 10 input digits. -/
theorem claim_C8_witness :
    digitsOf (Phone_nor1.format_by_country ("+4420".data) ("usa".data))
      = ("1".data) ++ lastN 10 (digitsOf ("+4420".data)) :=
  (claim_C8_amended ("+4420".data)).2.2.1 (by decide) ("usa".data) (by decide)

theorem fbc_plus_code (c K tail : Str) (hn : Phone_nor1.nanpCountry c = false)
    (huk : c = ("united kingdom".data) → K = ("44".data))
    (hmx : c = ("mexico".data) → K = ("52".data))
    (hau : c = ("australia".data) → K = ("61".data))
    (hnz : c = ("new zealand".data) → K = ("64".data))
    (hin : c = ("india".data) → K = ("91".data))
    (hbr : c = ("brazil".data) → K = ("55".data)) :
    ('+' :: K).isPrefixOf (Phone_nor1.format_by_country ('+' :: (K ++ tail)) c) = true := by
  rw [ List.isPrefixOf_iff_prefix]
  by_cases h1 : c = ("united kingdom".data)
  · subst h1
    rw [huk rfl]
    have hd : digitsOf ('+' :: (("44".data) ++ tail)) ≠ [] := by
      rw [digitsOf_plus_cons, digitsOf_append,
          show digitsOf ("44".data) = ("44".data) from by decide]
      exact cat_ne_nil _ (by decide : ("44".data) ≠ ([] : Str))
    rw [fbc_uk hd rfl]
    simp only [List.append_assoc]
    have hstep : ('+' :: ("44".data)) <+: ("+44-".data) :=
      List.isPrefixOf_iff_prefix.mp (by decide)
    exact hstep.trans (List.prefix_append _ _)
  · by_cases h2 : c = ("mexico".data)
    · subst h2
      rw [hmx rfl]
      have hd : digitsOf ('+' :: (("52".data) ++ tail)) ≠ [] := by
        rw [digitsOf_plus_cons, digitsOf_append,
            show digitsOf ("52".data) = ("52".data) from by decide]
        exact cat_ne_nil _ (by decide : ("52".data) ≠ ([] : Str))
      rw [fbc_mexico hd rfl]
      simp only [List.append_assoc]
      have hstep : ('+' :: ("52".data)) <+: ("+52-".data) :=
        List.isPrefixOf_iff_prefix.mp (by decide)
      exact hstep.trans (List.prefix_append _ _)
    · by_cases h3 : c = ("australia".data)
      · subst h3
        rw [hau rfl]
        have hd : digitsOf ('+' :: (("61".data) ++ tail)) ≠ [] := by
          rw [digitsOf_plus_cons, digitsOf_append,
              show digitsOf ("61".data) = ("61".data) from by decide]
          exact cat_ne_nil _ (by decide : ("61".data) ≠ ([] : Str))
        rw [fbc_australia hd rfl]
        simp only [List.append_assoc]
        have hstep : ('+' :: ("61".data)) <+: ("+61-".data) :=
          List.isPrefixOf_iff_prefix.mp (by decide)
        exact hstep.trans (List.prefix_append _ _)
      · by_cases h4 : c = ("new zealand".data)
        · subst h4
          rw [hnz rfl]
          have hd : digitsOf ('+' :: (("64".data) ++ tail)) ≠ [] := by
            rw [digitsOf_plus_cons, digitsOf_append,
                show digitsOf ("64".data) = ("64".data) from by decide]
            exact cat_ne_nil _ (by decide : ("64".data) ≠ ([] : Str))
          rw [fbc_nz hd rfl]
          simp only [List.append_assoc]
          have hstep : ('+' :: ("64".data)) <+: ("+64-".data) :=
            List.isPrefixOf_iff_prefix.mp (by decide)
          exact hstep.trans (List.prefix_append _ _)
        · by_cases h5 : c = ("india".data)
          · subst h5
            rw [hin rfl]
            have hd : digitsOf ('+' :: (("91".data) ++ tail)) ≠ [] := by
              rw [digitsOf_plus_cons, digitsOf_append,
                  show digitsOf ("91".data) = ("91".data) from by decide]
              exact cat_ne_nil _ (by decide : ("91".data) ≠ ([] : Str))
            rw [fbc_india hd rfl]
            have hstep : ('+' :: ("91".data)) <+: ("+91-".data) :=
              List.isPrefixOf_iff_prefix.mp (by decide)
            split <;> split <;>
              · try simp only [List.append_assoc]
                exact hstep.trans (List.prefix_append _ _)
          · by_cases h6 : c = ("brazil".data)
            · subst h6
              rw [hbr rfl]
              have hd : digitsOf ('+' :: (("55".data) ++ tail)) ≠ [] := by
                rw [digitsOf_plus_cons, digitsOf_append,
                    show digitsOf ("55".data) = ("55".data) from by decide]
                exact cat_ne_nil _ (by decide : ("55".data) ≠ ([] : Str))
              rw [fbc_brazil hd rfl]
              simp only [List.append_assoc]
              have hstep : ('+' :: ("55".data)) <+: ("+55-".data) :=
                List.isPrefixOf_iff_prefix.mp (by decide)
              exact hstep.trans (List.prefix_append _ _)
            · rw [fbc_id hn h1 h2 h3 h4 h5 h6]
              exact ⟨tail, rfl⟩

/-- C10: implicit invariant of the generic corrector of `Phone_nor1.py`: for
every non-NANP country whose name resolves to code K (with K agreeing with
the hard-coded rendering code on the specially formatted countries, as the
real tables do), every non-empty corrected number returned by
normalize_number begins with a plus sign immediately followed by K, on all
three decision branches (kept, replaced, added) and after the display
formatter runs. -/
theorem claim_C10_code_invariant (itab etab : Str → Option Str) (allCodes : List Str)
    (parseUS : Str → Option (Nat × Str)) (number c K : Str)
    (hres : resolveCode itab etab c = some K)
    (hn : Phone_nor1.nanpCountry c = false)
    (huk : c = ("united kingdom".data) → K = ("44".data))
    (hmx : c = ("mexico".data) → K = ("52".data))
    (hau : c = ("australia".data) → K = ("61".data))
    (hnz : c = ("new zealand".data) → K = ("64".data))
    (hin : c = ("india".data) → K = ("91".data))
    (hbr : c = ("brazil".data) → K = ("55".data))
    (hne : (Phone_nor1.normalize_number itab etab allCodes parseUS number c).1 ≠ []) :
    ('+' :: K).isPrefixOf
      ((Phone_nor1.normalize_number itab etab allCodes parseUS number c).1) = true := by
  by_cases hd : digitsOf number = []
  · rw [nor1_missing_top hd] at hne
    exact absurd rfl hne
  · cases hm : Phone_nor1.matched_code allCodes (digitsOf number) with
    | some m =>
      by_cases heq : m = K
      · obtain ⟨t, ht⟩ := List.isPrefixOf_iff_prefix.mp
          (firstMatch_sound (show firstMatch (sortByLenDesc allCodes) (digitsOf number)
            = some m from hm)).2
        rw [nor1_corr_matched_eq hd hres hn hm heq, ← ht, heq]
        exact fbc_plus_code c K t hn huk hmx hau hnz hin hbr
      · rw [nor1_corr_matched_ne hd hres hn hm heq]
        exact fbc_plus_code c K _ hn huk hmx hau hnz hin hbr
    | none =>
      by_cases hz : (digitsOf number).dropWhile (fun ch => ch == '0') = []
      · rw [nor1_corr_zeros hd hres hn hm hz] at hne
        exact absurd rfl hne
      · rw [nor1_corr_added hd hres hn hm hz]
        exact fbc_plus_code c K _ hn huk hmx hau hnz hin hbr

/-- Witness for C10: for india with code 91 and a number carrying no code, the
corrected number starts with plus 91. -/
theorem claim_C10_witness :
    ('+' :: ("91".data)).isPrefixOf
      ((Phone_nor1.normalize_number demoItab demoEtab demoCodes demoParse
          ("98765 43210".data) ("india".data)).1) = true :=
  claim_C10_code_invariant demoItab demoEtab demoCodes demoParse ("98765 43210".data)
    ("india".data) ("91".data) (by decide) (by decide) (by decide) (by decide) (by decide)
    (by decide) (by decide) (by decide) (by decide)
